import Mathlib

/-!
Shallow embedding of the pUSD treasury core (`src/lib/treasury.ts`).

The treasury service builds deposit and withdrawal transaction bundles for a
USDC-backed pegged token (pUSDC).  Ledger interaction is embedded as explicit
state passing over a `Conn` (the ledger view) together with an event trace that
records every ledger read and every transaction submission the service performs
itself.  JavaScript `number` amounts are embedded as exact rationals and
`Math.round` as `jsRound`.
-/

namespace PUSD

/-- Addresses on the ledger: the two token mints, wallet identities, and
associated token accounts, which `getAssociatedTokenAddress` derives as a pure
deterministic function of (mint, owner). -/
inductive Addr where
  | usdcMint
  | pusdcMint
  | wallet (n : ℕ)
  | ata (mint owner : Addr)
deriving DecidableEq, Repr

/-- Constant `USDC_DECIMALS` from `treasury.ts`. -/
def USDC_DECIMALS : ℕ := 6

/-- Constant `PUSDC_DECIMALS` from `treasury.ts`. -/
def PUSDC_DECIMALS : ℕ := 9

/-- JavaScript `Math.round`: round half toward positive infinity. -/
def jsRound (q : ℚ) : ℤ := ⌊q + 1 / 2⌋

/-- The expression `BigInt(Math.round(amount * 10 ** USDC_DECIMALS))` from `treasury.ts`. -/
def usdcAtomic (amount : ℚ) : ℤ := jsRound (amount * 10 ^ USDC_DECIMALS)

/-- The expression `BigInt(Math.round(amount * 10 ** PUSDC_DECIMALS))` from `treasury.ts`. -/
def pusdcAtomic (amount : ℚ) : ℤ := jsRound (amount * 10 ^ PUSDC_DECIMALS)

/-- Ledger instructions the service builds (`@solana/spl-token` builders). -/
inductive Instruction where
  | transfer (source dest authority : Addr) (amount : ℤ)
  | mintTo (mint dest authority : Addr) (amount : ℤ)
  | burn (account mint authority : Addr) (amount : ℤ)
  | createATA (payer addr owner mint : Addr)
deriving DecidableEq, Repr

/-- The service's view of the ledger: account existence (`getAccountInfo`),
token-account balances (`getTokenAccountBalance`; `none` models a missing
account or a failed fetch), and the pUSDC mint's total supply. -/
structure Conn where
  accountInfo : Addr → Bool
  tokenBalance : Addr → Option ℕ
  pusdcSupply : ℕ

/-- Events instrumenting every ledger interaction the service performs. -/
inductive Event where
  | readAccountInfo (a : Addr)
  | readTokenBalance (a : Addr)
  | readSupply
  | submit (tx : List Instruction)
deriving DecidableEq, Repr

/-- The explicit state threaded through the embedded service calls. -/
structure St where
  conn : Conn
  trace : List Event

/-- Effect on the ledger view of a confirmed create-account transaction:
the account now exists with a zero token balance. -/
def Conn.createAccount (c : Conn) (a : Addr) : Conn :=
  { c with
    accountInfo := fun x => if x = a then true else c.accountInfo x
    tokenBalance := fun x => if x = a then some 0 else c.tokenBalance x }

/-- Function `getOrCreateATA` from `treasury.ts`: derive the associated token account
address, and if the ledger reports it absent, submit and confirm a
create-account transaction before returning the address. -/
def getOrCreateATA (s : St) (mint owner payer : Addr) : Addr × St :=
  let a := Addr.ata mint owner
  let s1 : St := { s with trace := s.trace ++ [Event.readAccountInfo a] }
  if s1.conn.accountInfo a then (a, s1)
  else
    (a, { conn := s1.conn.createAccount a
          trace := s1.trace ++ [Event.submit [Instruction.createATA payer a owner mint]] })

/-- Function `getTokenBalance` from `treasury.ts`: fetch the owner's associated token
account balance, returning 0 when the account is missing or the fetch fails
(the `.catch(() => null)` / `if (!accountInfo) return BigInt(0)` path). -/
def getTokenBalance (s : St) (mint owner : Addr) : ℕ × St :=
  let a := Addr.ata mint owner
  ((s.conn.tokenBalance a).getD 0,
   { s with trace := s.trace ++ [Event.readTokenBalance a] })

/-- The treasury service's in-process state: the authority public key and the
cached treasury USDC account address. -/
structure TreasuryService where
  treasuryAuthority : Addr
  treasuryUSDC : Option Addr
deriving DecidableEq, Repr

/-- Method `initTreasuryUSDCAccount` from `treasury.ts`: return the cached treasury
USDC account address if set, otherwise get-or-create it and cache it. -/
def TreasuryService.initTreasuryUSDCAccount (svc : TreasuryService) (s : St) :
    Addr × TreasuryService × St :=
  match svc.treasuryUSDC with
  | some a => (a, svc, s)
  | none =>
      let r := getOrCreateATA s Addr.usdcMint svc.treasuryAuthority svc.treasuryAuthority
      (r.1, { svc with treasuryUSDC := some r.1 }, r.2)

/-- Method `getTreasuryReserves` from `treasury.ts`: ensure the treasury USDC account
exists, then read the treasury authority's USDC balance fresh from the ledger. -/
def TreasuryService.getTreasuryReserves (svc : TreasuryService) (s : St) :
    ℕ × TreasuryService × St :=
  let r1 := svc.initTreasuryUSDCAccount s
  let r2 := getTokenBalance r1.2.2 Addr.usdcMint svc.treasuryAuthority
  (r2.1, r1.2.1, r2.2)

/-- The error cases thrown by `depositUSDC` / `withdrawUSDC`. -/
inductive TreasuryError where
  | notPositive
  | belowMin
  | aboveMax
  | insufficientBalance
  | insufficientReserves
deriving DecidableEq, Repr

/-- The optional `{ min?, max? }` bounds argument (`slippageBps` is unused). -/
structure TreasuryOpts where
  min : Option ℚ
  max : Option ℚ
deriving DecidableEq, Repr

/-- The guard `opts?.min !== undefined && amount < opts.min`. -/
def belowOpt (amount : ℚ) : Option ℚ → Bool
  | none => false
  | some m => decide (amount < m)

/-- The guard `opts?.max !== undefined && amount > opts.max`. -/
def aboveOpt (amount : ℚ) : Option ℚ → Bool
  | none => false
  | some m => decide (m < amount)

/-- Method `depositUSDC` from `treasury.ts`: validate the amount, convert to atomic
units by rounding, check the user's USDC balance, resolve the three accounts
(creating missing ones), and return the two-instruction bundle
(USDC transfer to the treasury, then pUSDC mint to the user). -/
def TreasuryService.depositUSDC (svc : TreasuryService) (s : St) (user : Addr)
    (amount : ℚ) (opts : TreasuryOpts) :
    Except TreasuryError (List Instruction) × TreasuryService × St :=
  if amount ≤ 0 then (.error .notPositive, svc, s)
  else if belowOpt amount opts.min then (.error .belowMin, svc, s)
  else if aboveOpt amount opts.max then (.error .aboveMax, svc, s)
  else
    let usdcAmount := usdcAtomic amount
    let pusdcAmount := pusdcAtomic amount
    let rBal := getTokenBalance s Addr.usdcMint user
    if (rBal.1 : ℤ) < usdcAmount then (.error .insufficientBalance, svc, rBal.2)
    else
      let rT := svc.initTreasuryUSDCAccount rBal.2
      let rU := getOrCreateATA rT.2.2 Addr.usdcMint user user
      let rP := getOrCreateATA rU.2 Addr.pusdcMint user user
      (.ok [Instruction.transfer rU.1 rT.1 user usdcAmount,
            Instruction.mintTo Addr.pusdcMint rP.1 svc.treasuryAuthority pusdcAmount],
       rT.2.1, rP.2)

/-- Method `withdrawUSDC` from `treasury.ts`: validate the amount, convert to atomic
units by rounding, check the user's pUSDC balance, check the treasury's USDC
reserves fresh from the ledger, resolve accounts, and return the
two-instruction bundle (pUSDC burn from the user, then USDC transfer from the
treasury to the user). -/
def TreasuryService.withdrawUSDC (svc : TreasuryService) (s : St) (user : Addr)
    (amount : ℚ) (opts : TreasuryOpts) :
    Except TreasuryError (List Instruction) × TreasuryService × St :=
  if amount ≤ 0 then (.error .notPositive, svc, s)
  else if belowOpt amount opts.min then (.error .belowMin, svc, s)
  else if aboveOpt amount opts.max then (.error .aboveMax, svc, s)
  else
    let pusdcAmount := pusdcAtomic amount
    let usdcAmount := usdcAtomic amount
    let rBal := getTokenBalance s Addr.pusdcMint user
    if (rBal.1 : ℤ) < pusdcAmount then (.error .insufficientBalance, svc, rBal.2)
    else
      let rRes := svc.getTreasuryReserves rBal.2
      if (rRes.1 : ℤ) < usdcAmount then (.error .insufficientReserves, rRes.2.1, rRes.2.2)
      else
        let rT := rRes.2.1.initTreasuryUSDCAccount rRes.2.2
        let rU := getOrCreateATA rT.2.2 Addr.usdcMint user user
        let rP := getOrCreateATA rU.2 Addr.pusdcMint user user
        (.ok [Instruction.burn rP.1 Addr.pusdcMint user pusdcAmount,
              Instruction.transfer rT.1 rU.1 svc.treasuryAuthority usdcAmount],
         rT.2.1, rP.2)

/-- Modelled from the spec: `checkPegInvariant` does not appear anywhere under
`src/`; this definition follows spec section 4.5 word for word.  It reads the
current pegged-token total supply and the current Reserve Vault balance (the
treasury authority's USDC account, read through the service's balance-fetch
convention), returns `supply == vault_balance * 10^(pegged_decimals -
reserve_decimals)`, mutates nothing, and has no error outcome. -/
def TreasuryService.checkPegInvariant (svc : TreasuryService) (s : St) : Bool × St :=
  let supply := s.conn.pusdcSupply
  let s1 : St := { s with trace := s.trace ++ [Event.readSupply] }
  let rBal := getTokenBalance s1 Addr.usdcMint svc.treasuryAuthority
  (decide (supply = rBal.1 * 10 ^ (PUSDC_DECIMALS - USDC_DECIMALS)), rBal.2)

/-- Well-formed ledger view: an account the ledger reports as nonexistent has
no token balance to fetch. -/
def Conn.WF (c : Conn) : Prop :=
  ∀ a, c.accountInfo a = false → c.tokenBalance a = none

/-- The reserve-vault balance as currently recorded on the ledger: the token
balance of the treasury authority's USDC associated token account, 0 when the
account is missing. -/
def onLedgerVaultBalance (c : Conn) (auth : Addr) : ℕ :=
  (c.tokenBalance (Addr.ata Addr.usdcMint auth)).getD 0

/-- Validation as `depositUSDC` / `withdrawUSDC` perform it: positive and
within the optional bounds. -/
def validOk (amount : ℚ) (opts : TreasuryOpts) : Prop :=
  0 < amount ∧ belowOpt amount opts.min = false ∧ aboveOpt amount opts.max = false

instance (amount : ℚ) (opts : TreasuryOpts) : Decidable (validOk amount opts) := by
  unfold validOk; infer_instance

/-- The submitted transactions recorded in a trace. -/
def submissions (tr : List Event) : List (List Instruction) :=
  tr.filterMap fun e => match e with
    | .submit tx => some tx
    | _ => none

/-- Whether an instruction is an associated-token-account creation. -/
def Instruction.isCreateATA : Instruction → Bool
  | .createATA .. => true
  | _ => false

/-- A ledger view whose account-existence map is derived from the balance map;
such views are well formed by construction. -/
def mkConn (bal : Addr → Option ℕ) (supply : ℕ) : Conn :=
  { accountInfo := fun x => (bal x).isSome
    tokenBalance := bal
    pusdcSupply := supply }

lemma mkConn_WF (bal : Addr → Option ℕ) (supply : ℕ) : (mkConn bal supply).WF := by
  intro a h
  simpa [mkConn, Option.isSome_iff_exists] using h

/-- Rounding an integer-valued rational with `Math.round` is the identity. -/
lemma jsRound_intCast (n : ℤ) : jsRound ((n : ℚ)) = n := by
  unfold jsRound
  rw [add_comm, Int.floor_add_int]
  norm_num [Int.floor_eq_iff]

/-- Relation between the two atomic conversions when the amount is exactly
representable at the reserve precision: the pegged-atomic value is the
reserve-atomic value times `10 ^ (PUSDC_DECIMALS - USDC_DECIMALS) = 1000`. -/
lemma atomic_exact (a : ℚ) (n : ℤ) (hn : a * 10 ^ USDC_DECIMALS = (n : ℚ)) :
    usdcAtomic a = n ∧ pusdcAtomic a = n * 10 ^ (PUSDC_DECIMALS - USDC_DECIMALS) := by
  constructor
  · rw [usdcAtomic, hn, jsRound_intCast]
  · have h9 : a * 10 ^ PUSDC_DECIMALS = ((n * 10 ^ (PUSDC_DECIMALS - USDC_DECIMALS) : ℤ) : ℚ) := by
      have : a * 10 ^ PUSDC_DECIMALS = a * 10 ^ USDC_DECIMALS * 10 ^ (PUSDC_DECIMALS - USDC_DECIMALS) := by
        norm_num [USDC_DECIMALS, PUSDC_DECIMALS]; ring
      rw [this, hn]
      push_cast
      ring
    rw [pusdcAtomic, h9, jsRound_intCast]

lemma getTokenBalance_fst (s : St) (m o : Addr) :
    (getTokenBalance s m o).1 = (s.conn.tokenBalance (Addr.ata m o)).getD 0 := rfl

lemma getTokenBalance_conn (s : St) (m o : Addr) :
    (getTokenBalance s m o).2.conn = s.conn := rfl

lemma getTokenBalance_trace (s : St) (m o : Addr) :
    (getTokenBalance s m o).2.trace
      = s.trace ++ [Event.readTokenBalance (Addr.ata m o)] := rfl

lemma getOrCreateATA_fst (s : St) (m o p : Addr) :
    (getOrCreateATA s m o p).1 = Addr.ata m o := by
  simp only [getOrCreateATA]
  split <;> rfl

lemma getOrCreateATA_of_exists (s : St) (m o p : Addr)
    (h : s.conn.accountInfo (Addr.ata m o) = true) :
    (getOrCreateATA s m o p).2
      = { s with trace := s.trace ++ [Event.readAccountInfo (Addr.ata m o)] } := by
  simp only [getOrCreateATA]
  simp [h]

lemma getOrCreateATA_exists_after (s : St) (m o p : Addr) :
    (getOrCreateATA s m o p).2.conn.accountInfo (Addr.ata m o) = true := by
  simp only [getOrCreateATA]
  split
  · next h => exact h
  · simp [Conn.createAccount]

lemma Conn.createAccount_WF (c : Conn) (a : Addr) (h : c.WF) : (c.createAccount a).WF := by
  intro x hx
  by_cases hxa : x = a
  · simp [Conn.createAccount, hxa] at hx
  · simp only [Conn.createAccount, if_neg hxa] at hx ⊢
    exact h x hx

lemma getOrCreateATA_WF (s : St) (m o p : Addr) (h : s.conn.WF) :
    (getOrCreateATA s m o p).2.conn.WF := by
  simp only [getOrCreateATA]
  split
  · exact h
  · exact Conn.createAccount_WF _ _ h

lemma getOrCreateATA_balView (s : St) (m o p : Addr) (hWF : s.conn.WF) (x : Addr) :
    ((getOrCreateATA s m o p).2.conn.tokenBalance x).getD 0
      = (s.conn.tokenBalance x).getD 0 := by
  simp only [getOrCreateATA]
  split
  · rfl
  · next h =>
    by_cases hx : x = Addr.ata m o
    · subst hx
      have hnone : s.conn.tokenBalance (Addr.ata m o) = none :=
        hWF _ (by simpa using h)
      simp [Conn.createAccount, hnone]
    · simp [Conn.createAccount, hx]

lemma getOrCreateATA_supply (s : St) (m o p : Addr) :
    (getOrCreateATA s m o p).2.conn.pusdcSupply = s.conn.pusdcSupply := by
  simp only [getOrCreateATA]
  split
  · rfl
  · rfl

/-- A call that left the ledger quiet: the pegged supply and every token
balance are unchanged, well-formedness is preserved, and the only transactions
it submitted itself are account creations. -/
structure LedgerQuiet (s s' : St) : Prop where
  supply : s'.conn.pusdcSupply = s.conn.pusdcSupply
  balView : ∀ x, (s'.conn.tokenBalance x).getD 0 = (s.conn.tokenBalance x).getD 0
  wf : s'.conn.WF
  traceExt : ∃ d, s'.trace = s.trace ++ d ∧
    ∀ tx ∈ submissions d, ∀ i ∈ tx, i.isCreateATA = true

lemma LedgerQuiet.refl (s : St) (hWF : s.conn.WF) : LedgerQuiet s s :=
  ⟨rfl, fun _ => rfl, hWF, ⟨[], by simp, by simp [submissions]⟩⟩

lemma submissions_append (t₁ t₂ : List Event) :
    submissions (t₁ ++ t₂) = submissions t₁ ++ submissions t₂ := by
  simp [submissions]

lemma LedgerQuiet.trans {s₁ s₂ s₃ : St}
    (h₁ : LedgerQuiet s₁ s₂) (h₂ : LedgerQuiet s₂ s₃) : LedgerQuiet s₁ s₃ := by
  refine ⟨h₂.supply.trans h₁.supply, fun x => (h₂.balView x).trans (h₁.balView x), h₂.wf, ?_⟩
  obtain ⟨d₁, hd₁, hs₁⟩ := h₁.traceExt
  obtain ⟨d₂, hd₂, hs₂⟩ := h₂.traceExt
  refine ⟨d₁ ++ d₂, by rw [hd₂, hd₁, List.append_assoc], ?_⟩
  intro tx htx
  rw [submissions_append] at htx
  rcases List.mem_append.mp htx with h | h
  · exact hs₁ tx h
  · exact hs₂ tx h

lemma getTokenBalance_quiet (s : St) (m o : Addr) (hWF : s.conn.WF) :
    LedgerQuiet s (getTokenBalance s m o).2 :=
  ⟨rfl, fun _ => rfl, hWF,
   ⟨[Event.readTokenBalance (Addr.ata m o)], rfl, by simp [submissions]⟩⟩

lemma getOrCreateATA_quiet (s : St) (m o p : Addr) (hWF : s.conn.WF) :
    LedgerQuiet s (getOrCreateATA s m o p).2 := by
  refine ⟨getOrCreateATA_supply s m o p, getOrCreateATA_balView s m o p hWF,
    getOrCreateATA_WF s m o p hWF, ?_⟩
  simp only [getOrCreateATA]
  split
  · exact ⟨[Event.readAccountInfo (Addr.ata m o)], rfl, by simp [submissions]⟩
  · refine ⟨[Event.readAccountInfo (Addr.ata m o),
      Event.submit [Instruction.createATA p (Addr.ata m o) o m]], by simp, ?_⟩
    simp [submissions, Instruction.isCreateATA]

lemma initTreasury_fst (svc : TreasuryService) (s : St) :
    (svc.initTreasuryUSDCAccount s).1
      = svc.treasuryUSDC.getD (Addr.ata Addr.usdcMint svc.treasuryAuthority) := by
  unfold TreasuryService.initTreasuryUSDCAccount
  cases svc.treasuryUSDC <;> simp [getOrCreateATA_fst]

lemma initTreasury_authority (svc : TreasuryService) (s : St) :
    (svc.initTreasuryUSDCAccount s).2.1.treasuryAuthority = svc.treasuryAuthority := by
  unfold TreasuryService.initTreasuryUSDCAccount
  cases svc.treasuryUSDC <;> rfl

lemma initTreasury_cache (svc : TreasuryService) (s : St) :
    (svc.initTreasuryUSDCAccount s).2.1.treasuryUSDC = some (svc.initTreasuryUSDCAccount s).1 := by
  unfold TreasuryService.initTreasuryUSDCAccount
  cases h : svc.treasuryUSDC <;> simp [h]

lemma initTreasury_quiet (svc : TreasuryService) (s : St) (hWF : s.conn.WF) :
    LedgerQuiet s (svc.initTreasuryUSDCAccount s).2.2 := by
  unfold TreasuryService.initTreasuryUSDCAccount
  cases svc.treasuryUSDC
  · exact getOrCreateATA_quiet s Addr.usdcMint svc.treasuryAuthority svc.treasuryAuthority hWF
  · exact LedgerQuiet.refl s hWF

/-- The reserves value `getTreasuryReserves` returns is the current on-ledger
vault balance: it is read fresh from the ledger view, not from any cache. -/
lemma getTreasuryReserves_fresh (svc : TreasuryService) (s : St) (hWF : s.conn.WF) :
    (svc.getTreasuryReserves s).1 = onLedgerVaultBalance s.conn svc.treasuryAuthority := by
  unfold TreasuryService.getTreasuryReserves
  rw [getTokenBalance_fst]
  exact (initTreasury_quiet svc s hWF).balView (Addr.ata Addr.usdcMint svc.treasuryAuthority)

lemma getTreasuryReserves_quiet (svc : TreasuryService) (s : St) (hWF : s.conn.WF) :
    LedgerQuiet s (svc.getTreasuryReserves s).2.2 := by
  unfold TreasuryService.getTreasuryReserves
  exact (initTreasury_quiet svc s hWF).trans
    (getTokenBalance_quiet _ _ _ (initTreasury_quiet svc s hWF).wf)

lemma getTreasuryReserves_authority (svc : TreasuryService) (s : St) :
    (svc.getTreasuryReserves s).2.1.treasuryAuthority = svc.treasuryAuthority := by
  unfold TreasuryService.getTreasuryReserves
  exact initTreasury_authority svc s

lemma getTreasuryReserves_cache (svc : TreasuryService) (s : St) :
    (svc.getTreasuryReserves s).2.1.treasuryUSDC
      = some (svc.treasuryUSDC.getD (Addr.ata Addr.usdcMint svc.treasuryAuthority)) := by
  unfold TreasuryService.getTreasuryReserves
  rw [initTreasury_cache, initTreasury_fst]

/-- The user's balance as `depositUSDC` / `withdrawUSDC` read it. -/
def userBalanceView (c : Conn) (m o : Addr) : ℕ :=
  (c.tokenBalance (Addr.ata m o)).getD 0

lemma depositUSDC_notPositive (svc : TreasuryService) (s : St) (user : Addr)
    (a : ℚ) (opts : TreasuryOpts) (h0 : a ≤ 0) :
    svc.depositUSDC s user a opts = (.error .notPositive, svc, s) := by
  simp [TreasuryService.depositUSDC, h0]

lemma depositUSDC_belowMin (svc : TreasuryService) (s : St) (user : Addr)
    (a : ℚ) (opts : TreasuryOpts) (h0 : ¬ a ≤ 0) (hmin : belowOpt a opts.min = true) :
    svc.depositUSDC s user a opts = (.error .belowMin, svc, s) := by
  simp [TreasuryService.depositUSDC, h0, hmin]

lemma depositUSDC_aboveMax (svc : TreasuryService) (s : St) (user : Addr)
    (a : ℚ) (opts : TreasuryOpts) (h0 : ¬ a ≤ 0) (hmin : belowOpt a opts.min = false)
    (hmax : aboveOpt a opts.max = true) :
    svc.depositUSDC s user a opts = (.error .aboveMax, svc, s) := by
  simp [TreasuryService.depositUSDC, h0, hmin, hmax]

lemma depositUSDC_insufficient (svc : TreasuryService) (s : St) (user : Addr)
    (a : ℚ) (opts : TreasuryOpts) (h0 : ¬ a ≤ 0) (hmin : belowOpt a opts.min = false)
    (hmax : aboveOpt a opts.max = false)
    (hbal : (userBalanceView s.conn Addr.usdcMint user : ℤ) < usdcAtomic a) :
    svc.depositUSDC s user a opts
      = (.error .insufficientBalance, svc, (getTokenBalance s Addr.usdcMint user).2) := by
  simp only [TreasuryService.depositUSDC, h0, hmin, hmax, if_neg, if_false,
    Bool.false_eq_true, getTokenBalance_fst]
  unfold userBalanceView at hbal
  rw [if_pos hbal]

lemma depositUSDC_ok (svc : TreasuryService) (s : St) (user : Addr)
    (a : ℚ) (opts : TreasuryOpts) (h0 : ¬ a ≤ 0) (hmin : belowOpt a opts.min = false)
    (hmax : aboveOpt a opts.max = false)
    (hbal : ¬ (userBalanceView s.conn Addr.usdcMint user : ℤ) < usdcAtomic a) :
    (svc.depositUSDC s user a opts).1
      = .ok [Instruction.transfer (Addr.ata Addr.usdcMint user)
               (svc.treasuryUSDC.getD (Addr.ata Addr.usdcMint svc.treasuryAuthority))
               user (usdcAtomic a),
             Instruction.mintTo Addr.pusdcMint (Addr.ata Addr.pusdcMint user)
               svc.treasuryAuthority (pusdcAtomic a)] := by
  simp only [TreasuryService.depositUSDC, h0, hmin, hmax, if_neg, if_false,
    Bool.false_eq_true, getTokenBalance_fst]
  unfold userBalanceView at hbal
  rw [if_neg hbal]
  simp [getOrCreateATA_fst, initTreasury_fst]

lemma withdrawUSDC_notPositive (svc : TreasuryService) (s : St) (user : Addr)
    (a : ℚ) (opts : TreasuryOpts) (h0 : a ≤ 0) :
    svc.withdrawUSDC s user a opts = (.error .notPositive, svc, s) := by
  simp [TreasuryService.withdrawUSDC, h0]

lemma withdrawUSDC_belowMin (svc : TreasuryService) (s : St) (user : Addr)
    (a : ℚ) (opts : TreasuryOpts) (h0 : ¬ a ≤ 0) (hmin : belowOpt a opts.min = true) :
    svc.withdrawUSDC s user a opts = (.error .belowMin, svc, s) := by
  simp [TreasuryService.withdrawUSDC, h0, hmin]

lemma withdrawUSDC_aboveMax (svc : TreasuryService) (s : St) (user : Addr)
    (a : ℚ) (opts : TreasuryOpts) (h0 : ¬ a ≤ 0) (hmin : belowOpt a opts.min = false)
    (hmax : aboveOpt a opts.max = true) :
    svc.withdrawUSDC s user a opts = (.error .aboveMax, svc, s) := by
  simp [TreasuryService.withdrawUSDC, h0, hmin, hmax]

lemma withdrawUSDC_insufficient (svc : TreasuryService) (s : St) (user : Addr)
    (a : ℚ) (opts : TreasuryOpts) (h0 : ¬ a ≤ 0) (hmin : belowOpt a opts.min = false)
    (hmax : aboveOpt a opts.max = false)
    (hbal : (userBalanceView s.conn Addr.pusdcMint user : ℤ) < pusdcAtomic a) :
    svc.withdrawUSDC s user a opts
      = (.error .insufficientBalance, svc, (getTokenBalance s Addr.pusdcMint user).2) := by
  simp only [TreasuryService.withdrawUSDC, h0, hmin, hmax, if_neg, if_false,
    Bool.false_eq_true, getTokenBalance_fst]
  unfold userBalanceView at hbal
  rw [if_pos hbal]

lemma withdrawUSDC_undercollateralized (svc : TreasuryService) (s : St) (user : Addr)
    (a : ℚ) (opts : TreasuryOpts) (hWF : s.conn.WF)
    (h0 : ¬ a ≤ 0) (hmin : belowOpt a opts.min = false) (hmax : aboveOpt a opts.max = false)
    (hbal : ¬ (userBalanceView s.conn Addr.pusdcMint user : ℤ) < pusdcAtomic a)
    (hres : (onLedgerVaultBalance s.conn svc.treasuryAuthority : ℤ) < usdcAtomic a) :
    (svc.withdrawUSDC s user a opts).1 = .error .insufficientReserves := by
  simp only [TreasuryService.withdrawUSDC, h0, hmin, hmax, if_neg, if_false,
    Bool.false_eq_true, getTokenBalance_fst]
  unfold userBalanceView at hbal
  rw [if_neg hbal]
  have hconn : (getTokenBalance s Addr.pusdcMint user).2.conn = s.conn := rfl
  have hfresh : (svc.getTreasuryReserves (getTokenBalance s Addr.pusdcMint user).2).1
      = onLedgerVaultBalance s.conn svc.treasuryAuthority := by
    rw [getTreasuryReserves_fresh _ _ (by rw [hconn]; exact hWF), hconn]
  rw [hfresh, if_pos hres]

lemma withdrawUSDC_ok (svc : TreasuryService) (s : St) (user : Addr)
    (a : ℚ) (opts : TreasuryOpts) (hWF : s.conn.WF)
    (h0 : ¬ a ≤ 0) (hmin : belowOpt a opts.min = false) (hmax : aboveOpt a opts.max = false)
    (hbal : ¬ (userBalanceView s.conn Addr.pusdcMint user : ℤ) < pusdcAtomic a)
    (hres : ¬ (onLedgerVaultBalance s.conn svc.treasuryAuthority : ℤ) < usdcAtomic a) :
    (svc.withdrawUSDC s user a opts).1
      = .ok [Instruction.burn (Addr.ata Addr.pusdcMint user) Addr.pusdcMint user (pusdcAtomic a),
             Instruction.transfer
               (svc.treasuryUSDC.getD (Addr.ata Addr.usdcMint svc.treasuryAuthority))
               (Addr.ata Addr.usdcMint user) svc.treasuryAuthority (usdcAtomic a)] := by
  simp only [TreasuryService.withdrawUSDC, h0, hmin, hmax, if_neg, if_false,
    Bool.false_eq_true, getTokenBalance_fst]
  unfold userBalanceView at hbal
  rw [if_neg hbal]
  have hconn : (getTokenBalance s Addr.pusdcMint user).2.conn = s.conn := rfl
  have hfresh : (svc.getTreasuryReserves (getTokenBalance s Addr.pusdcMint user).2).1
      = onLedgerVaultBalance s.conn svc.treasuryAuthority := by
    rw [getTreasuryReserves_fresh _ _ (by rw [hconn]; exact hWF), hconn]
  rw [hfresh, if_neg hres]
  simp [getOrCreateATA_fst, initTreasury_fst, getTreasuryReserves_cache]

lemma getOrCreateATA_of_absent (s : St) (m o p : Addr)
    (h : s.conn.accountInfo (Addr.ata m o) = false) :
    (getOrCreateATA s m o p).2
      = { conn := s.conn.createAccount (Addr.ata m o)
          trace := (s.trace ++ [Event.readAccountInfo (Addr.ata m o)])
            ++ [Event.submit [Instruction.createATA p (Addr.ata m o) o m]] } := by
  simp only [getOrCreateATA]
  simp [h]

/-- The bundle shape of every successful deposit, read off the success branch. -/
lemma depositUSDC_ok_shape (svc : TreasuryService) (s : St) (user : Addr)
    (a : ℚ) (opts : TreasuryOpts) (l : List Instruction)
    (h : (svc.depositUSDC s user a opts).1 = .ok l) :
    l = [Instruction.transfer (Addr.ata Addr.usdcMint user)
           (svc.treasuryUSDC.getD (Addr.ata Addr.usdcMint svc.treasuryAuthority))
           user (usdcAtomic a),
         Instruction.mintTo Addr.pusdcMint (Addr.ata Addr.pusdcMint user)
           svc.treasuryAuthority (pusdcAtomic a)] := by
  simp only [TreasuryService.depositUSDC] at h
  split at h
  · simp at h
  split at h
  · simp at h
  split at h
  · simp at h
  split at h
  · simp at h
  · rw [getOrCreateATA_fst, getOrCreateATA_fst, initTreasury_fst] at h
    injection h with h
    exact h.symm

/-- The bundle shape of every successful withdrawal, read off the success
branch. -/
lemma withdrawUSDC_ok_shape (svc : TreasuryService) (s : St) (user : Addr)
    (a : ℚ) (opts : TreasuryOpts) (l : List Instruction)
    (h : (svc.withdrawUSDC s user a opts).1 = .ok l) :
    l = [Instruction.burn (Addr.ata Addr.pusdcMint user) Addr.pusdcMint user (pusdcAtomic a),
         Instruction.transfer
           (svc.treasuryUSDC.getD (Addr.ata Addr.usdcMint svc.treasuryAuthority))
           (Addr.ata Addr.usdcMint user) svc.treasuryAuthority (usdcAtomic a)] := by
  simp only [TreasuryService.withdrawUSDC] at h
  split at h
  · simp at h
  split at h
  · simp at h
  split at h
  · simp at h
  split at h
  · simp at h
  split at h
  · simp at h
  · rw [getOrCreateATA_fst, getOrCreateATA_fst, initTreasury_fst,
      getTreasuryReserves_cache, getTreasuryReserves_authority] at h
    injection h with h
    simp at h
    exact h.symm

lemma depositUSDC_quiet (svc : TreasuryService) (s : St) (user : Addr)
    (a : ℚ) (opts : TreasuryOpts) (hWF : s.conn.WF) :
    LedgerQuiet s (svc.depositUSDC s user a opts).2.2 := by
  simp only [TreasuryService.depositUSDC]
  split
  · exact .refl s hWF
  split
  · exact .refl s hWF
  split
  · exact .refl s hWF
  split
  · exact getTokenBalance_quiet s Addr.usdcMint user hWF
  · have q1 := getTokenBalance_quiet s Addr.usdcMint user hWF
    have q2 := initTreasury_quiet svc (getTokenBalance s Addr.usdcMint user).2 q1.wf
    have q3 := getOrCreateATA_quiet
      (svc.initTreasuryUSDCAccount (getTokenBalance s Addr.usdcMint user).2).2.2
      Addr.usdcMint user user q2.wf
    have q4 := getOrCreateATA_quiet
      (getOrCreateATA
        (svc.initTreasuryUSDCAccount (getTokenBalance s Addr.usdcMint user).2).2.2
        Addr.usdcMint user user).2
      Addr.pusdcMint user user q3.wf
    exact ((q1.trans q2).trans q3).trans q4

lemma withdrawUSDC_quiet (svc : TreasuryService) (s : St) (user : Addr)
    (a : ℚ) (opts : TreasuryOpts) (hWF : s.conn.WF) :
    LedgerQuiet s (svc.withdrawUSDC s user a opts).2.2 := by
  simp only [TreasuryService.withdrawUSDC]
  split
  · exact .refl s hWF
  split
  · exact .refl s hWF
  split
  · exact .refl s hWF
  split
  · exact getTokenBalance_quiet s Addr.pusdcMint user hWF
  · have q1 := getTokenBalance_quiet s Addr.pusdcMint user hWF
    have q2 := getTreasuryReserves_quiet svc (getTokenBalance s Addr.pusdcMint user).2 q1.wf
    split
    · exact q1.trans q2
    · have q3 := initTreasury_quiet
        (svc.getTreasuryReserves (getTokenBalance s Addr.pusdcMint user).2).2.1
        (svc.getTreasuryReserves (getTokenBalance s Addr.pusdcMint user).2).2.2 q2.wf
      have q4 := getOrCreateATA_quiet
        ((svc.getTreasuryReserves (getTokenBalance s Addr.pusdcMint user).2).2.1.initTreasuryUSDCAccount
          (svc.getTreasuryReserves (getTokenBalance s Addr.pusdcMint user).2).2.2).2.2
        Addr.usdcMint user user q3.wf
      have q5 := getOrCreateATA_quiet
        (getOrCreateATA
          ((svc.getTreasuryReserves (getTokenBalance s Addr.pusdcMint user).2).2.1.initTreasuryUSDCAccount
            (svc.getTreasuryReserves (getTokenBalance s Addr.pusdcMint user).2).2.2).2.2
          Addr.usdcMint user user).2
        Addr.pusdcMint user user q4.wf
      exact (((q1.trans q2).trans q3).trans q4).trans q5

/-! Concrete configurations used by witnesses and counterexamples. -/

/-- A user wallet. -/
def userW : Addr := Addr.wallet 0

/-- The treasury authority wallet. -/
def authW : Addr := Addr.wallet 1

/-- A freshly constructed service (no cached treasury account). -/
def svcW : TreasuryService := ⟨authW, none⟩

/-- No optional bounds. -/
def optsNone : TreasuryOpts := ⟨none, none⟩

/-- Ledger: the user holds 10,000,000 USDC atomic units; nothing else exists. -/
def stA : St :=
  ⟨mkConn (fun x => if x = Addr.ata Addr.usdcMint userW then some 10000000 else none) 0, []⟩

/-- Ledger: the user holds 150,000 pUSDC atomic units and the vault holds
100 USDC atomic units (the spec's undercollateralization scenario). -/
def stB : St :=
  ⟨mkConn (fun x =>
    if x = Addr.ata Addr.pusdcMint userW then some 150000
    else if x = Addr.ata Addr.usdcMint authW then some 100 else none) 150000, []⟩

/-- Ledger: the user holds 2,000,000,000 pUSDC atomic units and the vault
holds 2,000,000 USDC atomic units. -/
def stC : St :=
  ⟨mkConn (fun x =>
    if x = Addr.ata Addr.pusdcMint userW then some 2000000000
    else if x = Addr.ata Addr.usdcMint authW then some 2000000 else none) 2000000000, []⟩

/-- Ledger with no accounts at all. -/
def stE : St := ⟨mkConn (fun _ => none) 0, []⟩

lemma usdcAtomic_one : usdcAtomic 1 = 1000000 := by
  unfold usdcAtomic jsRound
  norm_num [USDC_DECIMALS, Int.floor_eq_iff]

lemma pusdcAtomic_one : pusdcAtomic 1 = 1000000000 := by
  unfold pusdcAtomic jsRound
  norm_num [PUSDC_DECIMALS, Int.floor_eq_iff]

lemma usdcAtomic_threeHalves : usdcAtomic (3 / 2) = 1500000 := by
  unfold usdcAtomic jsRound
  norm_num [USDC_DECIMALS, Int.floor_eq_iff]

lemma pusdcAtomic_threeHalves : pusdcAtomic (3 / 2) = 1500000000 := by
  unfold pusdcAtomic jsRound
  norm_num [PUSDC_DECIMALS, Int.floor_eq_iff]

lemma usdcAtomic_tiny : usdcAtomic (1 / 10 ^ 7) = 0 := by
  unfold usdcAtomic jsRound
  norm_num [USDC_DECIMALS, Int.floor_eq_iff]

lemma pusdcAtomic_tiny : pusdcAtomic (1 / 10 ^ 7) = 100 := by
  unfold pusdcAtomic jsRound
  norm_num [PUSDC_DECIMALS, Int.floor_eq_iff]

lemma usdcAtomic_spec_scenario : usdcAtomic (15 / 10 ^ 5) = 150 := by
  unfold usdcAtomic jsRound
  norm_num [USDC_DECIMALS, Int.floor_eq_iff]

lemma pusdcAtomic_spec_scenario : pusdcAtomic (15 / 10 ^ 5) = 150000 := by
  unfold pusdcAtomic jsRound
  norm_num [PUSDC_DECIMALS, Int.floor_eq_iff]

/-! ## Claim theorems -/

/-- C1: whenever the Reserve Vault's current on-ledger balance is below the
required reserve-atomic amount, `withdrawUSDC` fails with the
undercollateralization error and returns no bundle, even when the user's own
pegged balance covers the requested amount.  The vault balance compared is the
one recorded on the ledger at call time (`onLedgerVaultBalance`), not a cached
value. -/
theorem withdraw_fails_undercollateralized
    (svc : TreasuryService) (s : St) (user : Addr) (a : ℚ) (opts : TreasuryOpts)
    (hWF : s.conn.WF)
    (h0 : ¬ a ≤ 0) (hmin : belowOpt a opts.min = false) (hmax : aboveOpt a opts.max = false)
    (hbal : pusdcAtomic a ≤ (userBalanceView s.conn Addr.pusdcMint user : ℤ))
    (hres : (onLedgerVaultBalance s.conn svc.treasuryAuthority : ℤ) < usdcAtomic a) :
    (svc.withdrawUSDC s user a opts).1 = .error .insufficientReserves :=
  withdrawUSDC_undercollateralized svc s user a opts hWF h0 hmin hmax (not_lt.mpr hbal) hres

/-- Witness for C1: the spec's scenario — vault holds 100 reserve-atomic
units, the withdrawal needs 150, the user's pegged balance (150,000) is
sufficient — and the call fails with the reserves error. -/
theorem withdraw_fails_undercollateralized_witness :
    (svcW.withdrawUSDC stB userW (15 / 10 ^ 5) optsNone).1 = .error .insufficientReserves :=
  withdraw_fails_undercollateralized svcW stB userW (15 / 10 ^ 5) optsNone
    (mkConn_WF _ _) (by norm_num) rfl rfl
    (by rw [pusdcAtomic_spec_scenario]
        norm_num [userBalanceView, stB, mkConn, userW])
    (by rw [usdcAtomic_spec_scenario]
        norm_num [onLedgerVaultBalance, stB, mkConn, userW, authW, svcW])

/-- C2 counterexample: at amount `1 / 10^7` the atomic product `a * 10^6`
lies strictly between 0 and 1, so it is not a non-negative integer, yet the
deposit does not fail with any invalid-amount error: it silently rounds,
transferring 0 reserve-atomic units and minting 100 pegged-atomic units. -/
theorem fractional_amount_not_rejected_cex :
    (0 < (1 : ℚ) / 10 ^ 7 * 10 ^ USDC_DECIMALS ∧ (1 : ℚ) / 10 ^ 7 * 10 ^ USDC_DECIMALS < 1) ∧
    usdcAtomic (1 / 10 ^ 7) = 0 ∧
    (svcW.depositUSDC stA userW ((1 : ℚ) / 10 ^ 7) optsNone).1
      = .ok [Instruction.transfer (Addr.ata Addr.usdcMint userW)
               (Addr.ata Addr.usdcMint authW) userW 0,
             Instruction.mintTo Addr.pusdcMint (Addr.ata Addr.pusdcMint userW) authW 100] := by
  refine ⟨⟨by norm_num [USDC_DECIMALS], by norm_num [USDC_DECIMALS]⟩, usdcAtomic_tiny, ?_⟩
  have hok := depositUSDC_ok svcW stA userW (1 / 10 ^ 7) optsNone (by norm_num) rfl rfl
    (by rw [usdcAtomic_tiny]
        norm_num [userBalanceView, stA, mkConn, userW])
  rw [hok, usdcAtomic_tiny, pusdcAtomic_tiny]
  rfl

/-- C2 amended: for every amount that passes the positivity and bounds
validation — fractional atomic results included — the conversion silently
rounds via `Math.round`; no invalid-amount error is raised for fractional
values, the only remaining failure being the insufficient-balance check, and
any returned bundle carries the rounded atomic amounts. -/
theorem fractional_amount_rounds
    (svc : TreasuryService) (s : St) (user : Addr) (a : ℚ) (opts : TreasuryOpts)
    (h0 : ¬ a ≤ 0) (hmin : belowOpt a opts.min = false) (hmax : aboveOpt a opts.max = false) :
    (svc.depositUSDC s user a opts).1 = .error .insufficientBalance ∨
    (svc.depositUSDC s user a opts).1
      = .ok [Instruction.transfer (Addr.ata Addr.usdcMint user)
               (svc.treasuryUSDC.getD (Addr.ata Addr.usdcMint svc.treasuryAuthority))
               user (usdcAtomic a),
             Instruction.mintTo Addr.pusdcMint (Addr.ata Addr.pusdcMint user)
               svc.treasuryAuthority (pusdcAtomic a)] := by
  by_cases hbal : (userBalanceView s.conn Addr.usdcMint user : ℤ) < usdcAtomic a
  · exact Or.inl (by rw [depositUSDC_insufficient svc s user a opts h0 hmin hmax hbal])
  · exact Or.inr (depositUSDC_ok svc s user a opts h0 hmin hmax hbal)

/-- Witness for C2 (amended): instantiated at the fractional amount
`1 / 10^7` on a ledger where the user holds USDC. -/
theorem fractional_amount_rounds_witness :
    ¬ ((1 : ℚ) / 10 ^ 7) ≤ 0 ∧
    ((svcW.depositUSDC stA userW ((1 : ℚ) / 10 ^ 7) optsNone).1 = .error .insufficientBalance ∨
     (svcW.depositUSDC stA userW ((1 : ℚ) / 10 ^ 7) optsNone).1
       = .ok [Instruction.transfer (Addr.ata Addr.usdcMint userW)
                (svcW.treasuryUSDC.getD (Addr.ata Addr.usdcMint svcW.treasuryAuthority))
                userW (usdcAtomic (1 / 10 ^ 7)),
              Instruction.mintTo Addr.pusdcMint (Addr.ata Addr.pusdcMint userW)
                svcW.treasuryAuthority (pusdcAtomic (1 / 10 ^ 7))]) :=
  ⟨by norm_num,
   fractional_amount_rounds svcW stA userW (1 / 10 ^ 7) optsNone (by norm_num) rfl rfl⟩

/-- C3: when the amount is exactly representable at the reserve precision
(`a * 10^6` is the integer `n`), every bundle a successful deposit or
withdrawal returns places `n` reserve-atomic units in its transfer instruction
and exactly `n * 1000 = n * 10^(PUSDC_DECIMALS - USDC_DECIMALS)` pegged-atomic
units in its mint (resp. burn) instruction — a zero-remainder multiple. -/
theorem atomic_cross_multiplier
    (svc : TreasuryService) (s : St) (user : Addr) (a : ℚ) (opts : TreasuryOpts)
    (n : ℤ) (hn : a * 10 ^ USDC_DECIMALS = (n : ℚ)) :
    ((10 : ℤ) ^ (PUSDC_DECIMALS - USDC_DECIMALS) = 1000) ∧
    (∀ l, (svc.depositUSDC s user a opts).1 = .ok l →
      l = [Instruction.transfer (Addr.ata Addr.usdcMint user)
             (svc.treasuryUSDC.getD (Addr.ata Addr.usdcMint svc.treasuryAuthority)) user n,
           Instruction.mintTo Addr.pusdcMint (Addr.ata Addr.pusdcMint user)
             svc.treasuryAuthority (n * 1000)]) ∧
    (∀ l, (svc.withdrawUSDC s user a opts).1 = .ok l →
      l = [Instruction.burn (Addr.ata Addr.pusdcMint user) Addr.pusdcMint user (n * 1000),
           Instruction.transfer
             (svc.treasuryUSDC.getD (Addr.ata Addr.usdcMint svc.treasuryAuthority))
             (Addr.ata Addr.usdcMint user) svc.treasuryAuthority n]) := by
  obtain ⟨h6, h9⟩ := atomic_exact a n hn
  refine ⟨by norm_num [PUSDC_DECIMALS, USDC_DECIMALS], ?_, ?_⟩
  · intro l hl
    rw [depositUSDC_ok_shape svc s user a opts l hl, h6, h9]
    norm_num [PUSDC_DECIMALS, USDC_DECIMALS]
  · intro l hl
    rw [withdrawUSDC_ok_shape svc s user a opts l hl, h6, h9]
    norm_num [PUSDC_DECIMALS, USDC_DECIMALS]

/-- Witness for C3: amount `3/2` (`n = 1,500,000`) on a ledger where the user
holds enough USDC; the successful deposit's bundle carries 1,500,000
reserve-atomic and 1,500,000 × 1000 pegged-atomic units. -/
theorem atomic_cross_multiplier_witness :
    (3 / 2 : ℚ) * 10 ^ USDC_DECIMALS = ((1500000 : ℤ) : ℚ) ∧
    (svcW.depositUSDC stA userW (3 / 2) optsNone).1
      = .ok [Instruction.transfer (Addr.ata Addr.usdcMint userW)
               (Addr.ata Addr.usdcMint authW) userW 1500000,
             Instruction.mintTo Addr.pusdcMint (Addr.ata Addr.pusdcMint userW)
               authW (1500000 * 1000)] := by
  refine ⟨by norm_num [USDC_DECIMALS], ?_⟩
  have hok := depositUSDC_ok svcW stA userW (3 / 2) optsNone (by norm_num) rfl rfl
    (by rw [usdcAtomic_threeHalves]
        norm_num [userBalanceView, stA, mkConn, userW])
  have hsh := (atomic_cross_multiplier svcW stA userW (3 / 2) optsNone 1500000
    (by norm_num [USDC_DECIMALS])).2.1 _ hok
  rw [hok, hsh]
  rfl

/-- C4 (spec-modelled): `checkPegInvariant` reads the current pegged supply
and the current Reserve Vault balance, returns `true` exactly when
`supply = vault_balance * 10^(PUSDC_DECIMALS - USDC_DECIMALS)`, and performs no
ledger mutation; it is a total boolean function, so a mismatch is reported as
`false` rather than raised. -/
theorem checkPegInvariant_reports (svc : TreasuryService) (s : St) :
    ((svc.checkPegInvariant s).1 = true ↔
      s.conn.pusdcSupply
        = onLedgerVaultBalance s.conn svc.treasuryAuthority
            * 10 ^ (PUSDC_DECIMALS - USDC_DECIMALS)) ∧
    (svc.checkPegInvariant s).2.conn = s.conn := by
  constructor
  · simp [TreasuryService.checkPegInvariant, getTokenBalance_fst, onLedgerVaultBalance]
  · rfl

/-- C5: every deposit that passes validation and the balance check returns
exactly two instructions, in order: a transfer of the reserve-atomic amount
from the user's USDC account to the Reserve Vault with the user as authority,
then a mint of the pegged-atomic amount to the user's pUSDC account with the
Treasury Authority as mint authority. -/
theorem deposit_bundle_two_instructions
    (svc : TreasuryService) (s : St) (user : Addr) (a : ℚ) (opts : TreasuryOpts)
    (h0 : ¬ a ≤ 0) (hmin : belowOpt a opts.min = false) (hmax : aboveOpt a opts.max = false)
    (hbal : usdcAtomic a ≤ (userBalanceView s.conn Addr.usdcMint user : ℤ))
    (hcache : svc.treasuryUSDC = none
      ∨ svc.treasuryUSDC = some (Addr.ata Addr.usdcMint svc.treasuryAuthority)) :
    (svc.depositUSDC s user a opts).1
      = .ok [Instruction.transfer (Addr.ata Addr.usdcMint user)
               (Addr.ata Addr.usdcMint svc.treasuryAuthority) user (usdcAtomic a),
             Instruction.mintTo Addr.pusdcMint (Addr.ata Addr.pusdcMint user)
               svc.treasuryAuthority (pusdcAtomic a)] := by
  have h := depositUSDC_ok svc s user a opts h0 hmin hmax (not_lt.mpr hbal)
  rcases hcache with hc | hc <;> rw [h, hc] <;> rfl

/-- Witness for C5: deposit of `3/2` on `stA` yields the two-instruction
transfer-then-mint bundle. -/
theorem deposit_bundle_two_instructions_witness :
    (svcW.depositUSDC stA userW (3 / 2) optsNone).1
      = .ok [Instruction.transfer (Addr.ata Addr.usdcMint userW)
               (Addr.ata Addr.usdcMint authW) userW 1500000,
             Instruction.mintTo Addr.pusdcMint (Addr.ata Addr.pusdcMint userW)
               authW 1500000000] := by
  have h := deposit_bundle_two_instructions svcW stA userW (3 / 2) optsNone
    (by norm_num) rfl rfl
    (by rw [usdcAtomic_threeHalves]
        norm_num [userBalanceView, stA, mkConn, userW])
    (Or.inl rfl)
  rw [h, usdcAtomic_threeHalves, pusdcAtomic_threeHalves]
  rfl

/-- C6: every withdrawal that passes validation, the balance check, and the
solvency check returns exactly two instructions, in order: a burn of the
pegged-atomic amount from the user's pUSDC account with the user (the account
owner, not the Treasury Authority) as authority, then a transfer of the
reserve-atomic amount from the Reserve Vault to the user's USDC account with
the Treasury Authority as authority. -/
theorem withdraw_bundle_two_instructions
    (svc : TreasuryService) (s : St) (user : Addr) (a : ℚ) (opts : TreasuryOpts)
    (hWF : s.conn.WF)
    (h0 : ¬ a ≤ 0) (hmin : belowOpt a opts.min = false) (hmax : aboveOpt a opts.max = false)
    (hbal : pusdcAtomic a ≤ (userBalanceView s.conn Addr.pusdcMint user : ℤ))
    (hres : usdcAtomic a ≤ (onLedgerVaultBalance s.conn svc.treasuryAuthority : ℤ))
    (hcache : svc.treasuryUSDC = none
      ∨ svc.treasuryUSDC = some (Addr.ata Addr.usdcMint svc.treasuryAuthority)) :
    (svc.withdrawUSDC s user a opts).1
      = .ok [Instruction.burn (Addr.ata Addr.pusdcMint user) Addr.pusdcMint user (pusdcAtomic a),
             Instruction.transfer (Addr.ata Addr.usdcMint svc.treasuryAuthority)
               (Addr.ata Addr.usdcMint user) svc.treasuryAuthority (usdcAtomic a)] := by
  have h := withdrawUSDC_ok svc s user a opts hWF h0 hmin hmax
    (not_lt.mpr hbal) (not_lt.mpr hres)
  rcases hcache with hc | hc <;> rw [h, hc] <;> rfl

/-- Witness for C6: withdrawal of `3/2` on `stC` (user pUSDC 2e9, vault 2e6)
yields the two-instruction burn-then-transfer bundle. -/
theorem withdraw_bundle_two_instructions_witness :
    (svcW.withdrawUSDC stC userW (3 / 2) optsNone).1
      = .ok [Instruction.burn (Addr.ata Addr.pusdcMint userW) Addr.pusdcMint userW 1500000000,
             Instruction.transfer (Addr.ata Addr.usdcMint authW)
               (Addr.ata Addr.usdcMint userW) authW 1500000] := by
  have h := withdraw_bundle_two_instructions svcW stC userW (3 / 2) optsNone
    (mkConn_WF _ _) (by norm_num) rfl rfl
    (by rw [pusdcAtomic_threeHalves]
        norm_num [userBalanceView, stC, mkConn, userW])
    (by rw [usdcAtomic_threeHalves]
        norm_num [onLedgerVaultBalance, stC, mkConn, userW, authW, svcW])
    (Or.inl rfl)
  rw [h, usdcAtomic_threeHalves, pusdcAtomic_threeHalves]
  rfl

/-- The final state of a successful deposit, for concrete evaluation. -/
lemma depositUSDC_ok_state (svc : TreasuryService) (s : St) (user : Addr)
    (a : ℚ) (opts : TreasuryOpts) (h0 : ¬ a ≤ 0) (hmin : belowOpt a opts.min = false)
    (hmax : aboveOpt a opts.max = false)
    (hbal : ¬ (userBalanceView s.conn Addr.usdcMint user : ℤ) < usdcAtomic a) :
    (svc.depositUSDC s user a opts).2.2
      = (getOrCreateATA (getOrCreateATA
          (svc.initTreasuryUSDCAccount (getTokenBalance s Addr.usdcMint user).2).2.2
          Addr.usdcMint user user).2 Addr.pusdcMint user user).2 := by
  simp only [TreasuryService.depositUSDC, h0, hmin, hmax, if_neg, if_false,
    Bool.false_eq_true, getTokenBalance_fst]
  unfold userBalanceView at hbal
  rw [if_neg hbal]

/-- C7 counterexample: on a ledger where the user's pUSDC account does not yet
exist, the deposit call itself mutates ledger state before returning — the
account exists afterwards — and the call's trace records at least one
transaction submission performed by the call itself. -/
theorem pure_builder_cex :
    stA.conn.accountInfo (Addr.ata Addr.pusdcMint userW) = false ∧
    (svcW.depositUSDC stA userW 1 optsNone).2.2.conn.accountInfo
      (Addr.ata Addr.pusdcMint userW) = true ∧
    submissions (svcW.depositUSDC stA userW 1 optsNone).2.2.trace ≠ [] := by
  have hst := depositUSDC_ok_state svcW stA userW 1 optsNone (by norm_num) rfl rfl
    (by rw [usdcAtomic_one]
        norm_num [userBalanceView, stA, mkConn, userW])
  refine ⟨rfl, ?_, ?_⟩
  · rw [hst]
    rfl
  · rw [hst]
    decide

/-- C7 amended: deposit and withdrawal never submit the bundle they return —
the ledger's token balances and the pegged supply are unchanged when the call
returns, and the only transactions the call submits itself are
associated-token-account creations (performed when a needed account is
missing). -/
theorem builders_no_fund_movement
    (svc : TreasuryService) (s : St) (user : Addr) (a : ℚ) (opts : TreasuryOpts)
    (hWF : s.conn.WF) :
    LedgerQuiet s (svc.depositUSDC s user a opts).2.2 ∧
    LedgerQuiet s (svc.withdrawUSDC s user a opts).2.2 :=
  ⟨depositUSDC_quiet svc s user a opts hWF, withdrawUSDC_quiet svc s user a opts hWF⟩

/-- Witness for C7 (amended), at a concrete deposit and withdrawal. -/
theorem builders_no_fund_movement_witness :
    LedgerQuiet stA (svcW.depositUSDC stA userW 1 optsNone).2.2 ∧
    LedgerQuiet stA (svcW.withdrawUSDC stA userW 1 optsNone).2.2 :=
  builders_no_fund_movement svcW stA userW 1 optsNone (mkConn_WF _ _)

/-- C8: a non-positive amount, or one outside the supplied bounds, is rejected
by deposit and withdrawal with the matching validation error and the state
(ledger view, trace, service) completely unchanged — no balance read, no
account resolution, no creation.  Concretely, deposit rejects `-5` and `0`,
and accepts `3/2`, converting it to 1,500,000 reserve-atomic and 1,500,000,000
pegged-atomic units. -/
theorem validation_fail_fast :
    (∀ (svc : TreasuryService) (s : St) (user : Addr) (a : ℚ) (opts : TreasuryOpts),
      a ≤ 0 →
        svc.depositUSDC s user a opts = (.error .notPositive, svc, s) ∧
        svc.withdrawUSDC s user a opts = (.error .notPositive, svc, s)) ∧
    (∀ (svc : TreasuryService) (s : St) (user : Addr) (a : ℚ) (opts : TreasuryOpts),
      ¬ a ≤ 0 → belowOpt a opts.min = true →
        svc.depositUSDC s user a opts = (.error .belowMin, svc, s) ∧
        svc.withdrawUSDC s user a opts = (.error .belowMin, svc, s)) ∧
    (∀ (svc : TreasuryService) (s : St) (user : Addr) (a : ℚ) (opts : TreasuryOpts),
      ¬ a ≤ 0 → belowOpt a opts.min = false → aboveOpt a opts.max = true →
        svc.depositUSDC s user a opts = (.error .aboveMax, svc, s) ∧
        svc.withdrawUSDC s user a opts = (.error .aboveMax, svc, s)) ∧
    svcW.depositUSDC stA userW (-5) optsNone = (.error .notPositive, svcW, stA) ∧
    svcW.depositUSDC stA userW 0 optsNone = (.error .notPositive, svcW, stA) ∧
    usdcAtomic (3 / 2) = 1500000 ∧
    pusdcAtomic (3 / 2) = 1500000000 ∧
    (svcW.depositUSDC stA userW (3 / 2) optsNone).1
      = .ok [Instruction.transfer (Addr.ata Addr.usdcMint userW)
               (Addr.ata Addr.usdcMint authW) userW 1500000,
             Instruction.mintTo Addr.pusdcMint (Addr.ata Addr.pusdcMint userW)
               authW 1500000000] := by
  refine ⟨?_, ?_, ?_, ?_, ?_, usdcAtomic_threeHalves, pusdcAtomic_threeHalves, ?_⟩
  · intro svc s user a opts h
    exact ⟨depositUSDC_notPositive svc s user a opts h,
           withdrawUSDC_notPositive svc s user a opts h⟩
  · intro svc s user a opts h0 hmin
    exact ⟨depositUSDC_belowMin svc s user a opts h0 hmin,
           withdrawUSDC_belowMin svc s user a opts h0 hmin⟩
  · intro svc s user a opts h0 hmin hmax
    exact ⟨depositUSDC_aboveMax svc s user a opts h0 hmin hmax,
           withdrawUSDC_aboveMax svc s user a opts h0 hmin hmax⟩
  · exact depositUSDC_notPositive svcW stA userW (-5) optsNone (by norm_num)
  · exact depositUSDC_notPositive svcW stA userW 0 optsNone (by norm_num)
  · have h := depositUSDC_ok svcW stA userW (3 / 2) optsNone (by norm_num) rfl rfl
      (by rw [usdcAtomic_threeHalves]
          norm_num [userBalanceView, stA, mkConn, userW])
    rw [h, usdcAtomic_threeHalves, pusdcAtomic_threeHalves]
    rfl

/-- Witness for C8, instantiating the universally quantified rejection parts
at concrete inputs. -/
theorem validation_fail_fast_witness :
    (svcW.depositUSDC stA userW (-5) optsNone = (.error .notPositive, svcW, stA) ∧
     svcW.withdrawUSDC stA userW (-5) optsNone = (.error .notPositive, svcW, stA)) ∧
    (svcW.depositUSDC stA userW 2 ⟨some 3, none⟩ = (.error .belowMin, svcW, stA) ∧
     svcW.withdrawUSDC stA userW 2 ⟨some 3, none⟩ = (.error .belowMin, svcW, stA)) :=
  ⟨validation_fail_fast.1 svcW stA userW (-5) optsNone (by norm_num),
   validation_fail_fast.2.1 svcW stA userW 2 ⟨some 3, none⟩ (by norm_num)
     (by simp [belowOpt]; norm_num)⟩

/-- C9: associated-token-account resolution is idempotent.  The resolved
address is a deterministic function of (token, owner) alone; when the account
already exists, the call leaves the ledger view unchanged and submits nothing;
and a second resolve immediately after a first returns the identical address
with no further submission. -/
theorem account_resolution_idempotent :
    (∀ (s : St) (m o p : Addr), (getOrCreateATA s m o p).1 = Addr.ata m o) ∧
    (∀ (s : St) (m o p : Addr), s.conn.accountInfo (Addr.ata m o) = true →
      (getOrCreateATA s m o p).2.conn = s.conn ∧
      submissions (getOrCreateATA s m o p).2.trace = submissions s.trace) ∧
    (∀ (s : St) (m o p q : Addr),
      (getOrCreateATA (getOrCreateATA s m o p).2 m o q).1 = (getOrCreateATA s m o p).1 ∧
      (getOrCreateATA (getOrCreateATA s m o p).2 m o q).2.conn
        = (getOrCreateATA s m o p).2.conn ∧
      submissions (getOrCreateATA (getOrCreateATA s m o p).2 m o q).2.trace
        = submissions (getOrCreateATA s m o p).2.trace) := by
  refine ⟨fun s m o p => getOrCreateATA_fst s m o p, ?_, ?_⟩
  · intro s m o p h
    rw [getOrCreateATA_of_exists s m o p h]
    exact ⟨rfl, by simp [submissions_append, submissions]⟩
  · intro s m o p q
    have hex := getOrCreateATA_exists_after s m o p
    have h3 := getOrCreateATA_of_exists (getOrCreateATA s m o p).2 m o q hex
    refine ⟨by rw [getOrCreateATA_fst, getOrCreateATA_fst], by rw [h3], ?_⟩
    rw [h3]
    simp [submissions_append, submissions]

/-- Witness for C9: resolving the user's existing USDC account on `stA`
returns without touching the ledger view or submitting anything. -/
theorem account_resolution_idempotent_witness :
    (getOrCreateATA stA Addr.usdcMint userW userW).2.conn = stA.conn ∧
    submissions (getOrCreateATA stA Addr.usdcMint userW userW).2.trace
      = submissions stA.trace :=
  account_resolution_idempotent.2.1 stA Addr.usdcMint userW userW rfl

/-- C10 counterexample: the user holds no USDC account at all, the amount
`1 / 10^7` is positive, and yet the deposit does not fail with the
insufficient-balance error — the required reserve-atomic amount rounds to 0,
the balance check `0 < 0` passes, and the call returns a bundle. -/
theorem missing_account_deposit_cex :
    stE.conn.tokenBalance (Addr.ata Addr.usdcMint userW) = none ∧
    ¬ ((1 : ℚ) / 10 ^ 7) ≤ 0 ∧
    (svcW.depositUSDC stE userW ((1 : ℚ) / 10 ^ 7) optsNone).1
      = .ok [Instruction.transfer (Addr.ata Addr.usdcMint userW)
               (Addr.ata Addr.usdcMint authW) userW 0,
             Instruction.mintTo Addr.pusdcMint (Addr.ata Addr.pusdcMint userW) authW 100] := by
  refine ⟨rfl, by norm_num, ?_⟩
  have hok := depositUSDC_ok svcW stE userW (1 / 10 ^ 7) optsNone (by norm_num) rfl rfl
    (by rw [usdcAtomic_tiny]
        norm_num [userBalanceView, stE, mkConn])
  rw [hok, usdcAtomic_tiny, pusdcAtomic_tiny]
  rfl

/-- C10 amended: the balance query returns 0 (without raising) whenever the
token account is missing or the fetch fails; consequently a deposit by a user
with no reserve-token account fails with the insufficient-balance error for
every amount whose rounded reserve-atomic value is at least 1 (amounts
rounding to 0 reserve-atomic units pass the balance check instead). -/
theorem missing_account_balance_zero
    (s : St) (m o : Addr) (svc : TreasuryService) (user : Addr)
    (a : ℚ) (opts : TreasuryOpts) :
    (s.conn.tokenBalance (Addr.ata m o) = none → (getTokenBalance s m o).1 = 0) ∧
    (¬ a ≤ 0 → belowOpt a opts.min = false → aboveOpt a opts.max = false →
      s.conn.tokenBalance (Addr.ata Addr.usdcMint user) = none →
      1 ≤ usdcAtomic a →
      (svc.depositUSDC s user a opts).1 = .error .insufficientBalance) := by
  constructor
  · intro h
    rw [getTokenBalance_fst, h]
    rfl
  · intro h0 hmin hmax hnone h1
    have hbal : (userBalanceView s.conn Addr.usdcMint user : ℤ) < usdcAtomic a := by
      unfold userBalanceView
      rw [hnone]
      exact lt_of_lt_of_le (by norm_num) h1
    rw [depositUSDC_insufficient svc s user a opts h0 hmin hmax hbal]

/-- Witness for C10 (amended): on the empty ledger, the balance query returns
0 and a deposit of 1 whole unit fails with the insufficient-balance error. -/
theorem missing_account_balance_zero_witness :
    (getTokenBalance stE Addr.usdcMint userW).1 = 0 ∧
    (svcW.depositUSDC stE userW 1 optsNone).1 = .error .insufficientBalance :=
  ⟨(missing_account_balance_zero stE Addr.usdcMint userW svcW userW 1 optsNone).1 rfl,
   (missing_account_balance_zero stE Addr.usdcMint userW svcW userW 1 optsNone).2
     (by norm_num) rfl rfl rfl (by rw [usdcAtomic_one]; norm_num)⟩

end PUSD
